import Mathlib

/-!
Shallow embedding of the GloVe matrix-factorisation model of this repository
(src/trainer/glove.py and src/trainer/train_estimator.py).  Real-valued tensors
are modelled as lists of rationals, trainable variables as explicit state, and
graph-time failures of TensorFlow ops as an Except result.
-/

namespace Glove

/-- Dot product of two vectors: the elementwise product summed along the embedding
dimension (tf.reduce_sum of tf.multiply, glove.py line 102, for one batch element). -/
def dot (xs ys : List ℚ) : ℚ := (List.zipWith (fun a b => a * b) xs ys).sum

/-- Models tf.contrib.lookup.index_table_from_tensor(mapping, default_value=0)
followed by table.lookup (glove.py lines 19-21 and 30): a token present in the
mapping is sent to its index, an unknown token to the default id 0. -/
def index_table_lookup (mapping : List String) (token : String) : Nat :=
  if mapping.indexOf token < mapping.length then mapping.indexOf token else 0

/-- Models tf.contrib.lookup.index_to_string_table_from_tensor followed by lookup
(glove.py lines 59-62); its default value for an out-of-range id is the string UNK. -/
def index_to_string (mapping : List String) (i : Nat) : String :=
  mapping.getD i unk_token
where unk_token : String := "UNK"

/-- One embedding table of a token space, mirroring the field_variables record of
glove.py: the vocabulary mapping, the [vocab, embedding_size] embedding matrix and
the [vocab] bias vector. -/
structure FieldVariables where
  mapping : List String
  embeddings : List (List ℚ)
  biases : List ℚ
deriving DecidableEq

/-- Batched id lookup for a field (glove.py line 30). -/
def get_field_ids (fv : FieldVariables) (tokens : List String) : List Nat :=
  tokens.map (index_table_lookup fv.mapping)

/-- Models tf.nn.embedding_lookup on the embedding matrix (glove.py lines 32-33). -/
def embedding_lookup (table : List (List ℚ)) (ids : List Nat) : List (List ℚ) :=
  ids.map (fun i => table.getD i [])

/-- Models tf.nn.embedding_lookup on the bias vector (glove.py lines 35-36). -/
def bias_lookup (biases : List ℚ) (ids : List Nat) : List ℚ :=
  ids.map (fun i => biases.getD i 0)

/-- Batched dot product of looked-up row and column embeddings (glove.py line 102). -/
def embed_product (row_embed col_embed : List (List ℚ)) : List ℚ :=
  List.zipWith dot row_embed col_embed

/-- Models tf.add_n over the three [batch] tensors of glove.py lines 105-107. -/
def add_n3 (a b c : List ℚ) : List ℚ :=
  List.zipWith (fun x y => x + y) a (List.zipWith (fun x y => x + y) b c)

/-- The matrix-factorisation forward pass on already looked-up ids (glove.py lines
102-107): global bias broadcast-added to row bias plus column bias plus dot product. -/
def glove_forward_ids (g : ℚ) (row col : FieldVariables)
    (row_ids col_ids : List Nat) : List ℚ :=
  (add_n3 (bias_lookup row.biases row_ids) (bias_lookup col.biases col_ids)
      (embed_product (embedding_lookup row.embeddings row_ids)
        (embedding_lookup col.embeddings col_ids))).map (fun x => g + x)

/-- The trainable state of the model: global bias scalar plus the row and column
embedding tables (glove.py lines 93-99). -/
structure ModelState where
  global_bias : ℚ
  row : FieldVariables
  col : FieldVariables
deriving DecidableEq

/-- The forward pass from raw token features: id lookup then glove_forward_ids
(glove.py lines 91-108). -/
def glove_predicted (st : ModelState) (row_tokens col_tokens : List String) : List ℚ :=
  glove_forward_ids st.global_bias st.row st.col
    (get_field_ids st.row row_tokens) (get_field_ids st.col col_tokens)

/-- Per-element squared difference of labels and predictions, as computed inside
tf.losses.mean_squared_error. -/
def squared_difference (labels predictions : List ℚ) : List ℚ :=
  List.zipWith (fun v p => (v - p) ^ 2) labels predictions

/-- The per-element weighted losses weight * (label - prediction)^2. -/
def weighted_losses (labels predictions weights : List ℚ) : List ℚ :=
  List.zipWith (fun w x => w * x) weights (squared_difference labels predictions)

/-- The number of batch elements whose weight is nonzero, as counted by the
SUM_BY_NONZERO_WEIGHTS reduction of tf.losses.mean_squared_error. -/
def num_present (weights : List ℚ) : Nat :=
  (weights.filter (fun w => decide (w ≠ 0))).length

/-- Models tf.losses.mean_squared_error(labels, predictions, weights) as called on
glove.py lines 137-139, with its default reduction SUM_BY_NONZERO_WEIGHTS: the sum
of the weighted squared errors divided by the number of nonzero weights, where the
safe mean returns 0 when no weight is nonzero. -/
def mean_squared_error (labels predictions weights : List ℚ) : ℚ :=
  if num_present weights = 0 then 0
  else (weighted_losses labels predictions weights).sum / (num_present weights : ℚ)

def c2labels : List ℚ := [0]

def c2preds : List ℚ := [1]

def c2weights : List ℚ := [2]

def w2labels : List ℚ := [1, 5]

def w2preds : List ℚ := [1, 7]

def w2weights : List ℚ := [2, 0]

def c3labels : List ℚ := [3, 5]

def c3preds : List ℚ := [7, 7]

def c3weights : List ℚ := [0, 0]

def w3labels : List ℚ := [4]

def w3preds : List ℚ := [9]

def w3weights : List ℚ := [0]

/-- Failure of a TensorFlow op at graph execution time. -/
inductive TfError
  | invalidArgument
deriving DecidableEq

/-- The ranking order used to model tf.math.top_k: higher score first and, for
equal scores, the lower index first (the documented tie rule of tf.math.top_k). -/
def simOrder (a b : Nat × ℚ) : Prop :=
  b.2 < a.2 ∨ (a.2 = b.2 ∧ a.1 ≤ b.1)

instance simOrder_decidable : DecidableRel simOrder := fun a b =>
  inferInstanceAs (Decidable (b.2 < a.2 ∨ (a.2 = b.2 ∧ a.1 ≤ b.1)))

instance simOrder_total : IsTotal (Nat × ℚ) simOrder where
  total a b := by
    rcases lt_trichotomy a.2 b.2 with h | h | h
    · exact Or.inr (Or.inl h)
    · rcases Nat.le_total a.1 b.1 with hn | hn
      · exact Or.inl (Or.inr ⟨h, hn⟩)
      · exact Or.inr (Or.inr ⟨h.symm, hn⟩)
    · exact Or.inl (Or.inl h)

instance simOrder_trans : IsTrans (Nat × ℚ) simOrder where
  trans a b c hab hbc := by
    rcases hab with h1 | ⟨h1, h1n⟩
    · rcases hbc with h2 | ⟨h2, _⟩
      · exact Or.inl (h2.trans h1)
      · exact Or.inl (lt_of_eq_of_lt h2.symm h1)
    · rcases hbc with h2 | ⟨h2, h2n⟩
      · exact Or.inl (lt_of_lt_of_eq h2 h1.symm)
      · exact Or.inr ⟨h1.trans h2, h1n.trans h2n⟩

/-- The strict version of the ranking order: a strictly larger score, or an equal
score with a strictly smaller vocabulary id. -/
def strict_rank_order (a b : Nat × ℚ) : Prop :=
  b.2 < a.2 ∨ (a.2 = b.2 ∧ a.1 < b.1)

/-- All (index, score) pairs ranked by descending score with ties broken by
ascending index, truncated to the first k: the selection rule of tf.math.top_k
(glove.py lines 55-56). -/
def top_k_pairs (scores : List ℚ) (k : Nat) : List (Nat × ℚ) :=
  (List.insertionSort simOrder scores.enum).take k

/-- Models tf.math.top_k(scores, k): k must be at most the size of the last
dimension, otherwise the op fails with InvalidArgumentError when it is executed. -/
def top_k (scores : List ℚ) (k : Nat) : Except TfError (List (Nat × ℚ)) :=
  if k ≤ scores.length then Except.ok (top_k_pairs scores k)
  else Except.error TfError.invalidArgument

/-- Models tf.matmul(a, b, transpose_b=True): row i of the result holds the dot
products of row i of a against every row of b (glove.py line 53). -/
def matmul_transpose_b (a b : List (List ℚ)) : List (List ℚ) :=
  a.map (fun ar => b.map (fun br => dot ar br))

/-- Models get_similarity of glove.py lines 48-71 on the looked-up ids of a batch.
The l2 normalisation of lines 49-52 divides every row by its euclidean norm, a
positive scale whose square root has no exact rational embedding and which the
claims never depend on; following spec section 4.5 the engine is therefore
modelled on already-normalised embeddings: the cosine similarity matrix is the
product of the looked-up rows against the transposed full table, and every row of
it goes through tf.math.top_k. -/
def get_similarity (fv : FieldVariables) (ids : List Nat) (k : Nat) :
    Except TfError (List (List (Nat × ℚ))) :=
  (matmul_transpose_b (embedding_lookup fv.embeddings ids) fv.embeddings).mapM
    (fun row => top_k row k)

/-- The three estimator modes (tf.estimator.ModeKeys). -/
inductive ModeKeys
  | TRAIN
  | EVAL
  | PREDICT
deriving DecidableEq

/-- The hyper-parameters of model_fn that matter to the claims (glove.py lines
83-86); optimizer name and learning rate only select the external optimizer
black box and carry no structure here. -/
structure HParams where
  embedding_size : Nat
  k : Nat
deriving DecidableEq

/-- One input batch: the token features and the observed values and weights. -/
structure Features where
  row_tokens : List String
  col_tokens : List String
  values : List ℚ
  weights : List ℚ
deriving DecidableEq

/-- The predictions dictionary returned in PREDICT mode (glove.py lines 122-132). -/
structure PredictOutputs where
  row_embed : List (List ℚ)
  row_bias : List ℚ
  column_embed : List (List ℚ)
  column_bias : List ℚ
  top_k_row_similarity : List (List (Nat × ℚ))
  top_k_row_string : List (List String)
  top_k_column_similarity : List (List (Nat × ℚ))
  top_k_column_string : List (List String)
deriving DecidableEq

/-- The estimator spec returned by model_fn: which mode it was built for, the
optional predictions, the optional loss, and whether a train op was constructed. -/
structure EstimatorSpec where
  mode : ModeKeys
  predictions : Option PredictOutputs
  loss : Option ℚ
  train_op : Bool
deriving DecidableEq

/-- Models model_fn of glove.py lines 74-149 on the current variable values: the
forward pass is shared by all modes; PREDICT builds the similarity outputs and is
the only mode that can fail (inside tf.math.top_k); EVAL stops after the loss;
TRAIN additionally constructs the optimizer step.  No mode validates k. -/
def model_fn (hp : HParams) (st : ModelState) (features : Features)
    (mode : ModeKeys) : Except TfError EstimatorSpec :=
  let row_ids := get_field_ids st.row features.row_tokens
  let col_ids := get_field_ids st.col features.col_tokens
  match mode with
  | ModeKeys.PREDICT =>
      (get_similarity st.row row_ids hp.k).bind (fun row_sim =>
        (get_similarity st.col col_ids hp.k).map (fun col_sim =>
          { mode := mode
            predictions := some
              { row_embed := embedding_lookup st.row.embeddings row_ids
                row_bias := bias_lookup st.row.biases row_ids
                column_embed := embedding_lookup st.col.embeddings col_ids
                column_bias := bias_lookup st.col.biases col_ids
                top_k_row_similarity := row_sim
                top_k_row_string := row_sim.map
                  (fun r => r.map (fun p => index_to_string st.row.mapping p.1))
                top_k_column_similarity := col_sim
                top_k_column_string := col_sim.map
                  (fun r => r.map (fun p => index_to_string st.col.mapping p.1)) }
            loss := none
            train_op := false }))
  | ModeKeys.EVAL =>
      Except.ok
        { mode := mode
          predictions := none
          loss := some (mean_squared_error features.values
            (glove_predicted st features.row_tokens features.col_tokens)
            features.weights)
          train_op := false }
  | ModeKeys.TRAIN =>
      Except.ok
        { mode := mode
          predictions := none
          loss := some (mean_squared_error features.values
            (glove_predicted st features.row_tokens features.col_tokens)
            features.weights)
          train_op := true }

/-- Whether an Except result is a success. -/
def isOkE {α : Type} (e : Except TfError α) : Bool :=
  match e with
  | Except.ok _ => true
  | Except.error _ => false

/-- Parameters change only by running the returned train op; the optimizer update
itself (glove.py lines 145-147) is a pluggable black box `step` applied by the
external driver, and nothing happens without a constructed train op. -/
def apply_spec (st : ModelState) (step : ModelState → ModelState)
    (spec : EstimatorSpec) : ModelState :=
  cond spec.train_op (step st) st

/-- The variable creation schemes relevant to claim C7. -/
inductive InitScheme
  | zeros
  | glorot_uniform
deriving DecidableEq

/-- The scheme tf.get_variable uses in TF1 when no initializer argument is given:
glorot uniform, i.e. small random values. -/
def tf_get_variable_default : InitScheme := InitScheme.glorot_uniform

/-- The creation schemes of the two field variables, per token space. -/
structure FieldVariablesInit where
  embeddings_scheme : InitScheme
  biases_scheme : InitScheme
deriving DecidableEq

/-- get_field_variables creates both the embedding matrix and the bias vector by
tf.get_variable with a shape argument only (glove.py lines 23-25), so both use
the framework default scheme. -/
def get_field_variables_schemes : FieldVariablesInit :=
  { embeddings_scheme := tf_get_variable_default
    biases_scheme := tf_get_variable_default }

/-- Squared euclidean norm of a vector. -/
def sq_norm (v : List ℚ) : ℚ := (v.map (fun x => x ^ 2)).sum

/-- Squared frobenius norm of a matrix. -/
def sq_norm_matrix (m : List (List ℚ)) : ℚ := (m.map sq_norm).sum

/-- Modelled from the spec: build_glove_model and its regularised keras layers
live in trainer/glove_utils.py, which is not among the sources here
(train_estimator.py line 32 only calls it); spec section 4.2 says regularisation
"contributes a lambda times (squared norm of M plus squared norm of b) style
penalty" for an embedding table, so the penalty is the coefficient times the
squared norms of both embedding matrices and both bias vectors. -/
def l2_penalty (l2_reg : ℚ) (st : ModelState) : ℚ :=
  l2_reg * (sq_norm_matrix st.row.embeddings + sq_norm st.row.biases
    + sq_norm_matrix st.col.embeddings + sq_norm st.col.biases)

/-- Modelled from the spec: the total training objective is the loss plus the
regularisation penalty (spec section 4.4; wired through regularization_losses of
the estimator head in train_estimator.py lines 44-52). -/
def total_objective (l2_reg : ℚ) (st : ModelState) (loss : ℚ) : ℚ :=
  loss + l2_penalty l2_reg st

def c4fv : FieldVariables := { mapping := ["a"], embeddings := [[1]], biases := [0] }

def c4hp : HParams := { embedding_size := 64, k := 5 }

def c4st : ModelState := { global_bias := 0, row := c4fv, col := c4fv }

def c4features : Features :=
  { row_tokens := ["a"], col_tokens := ["a"], values := [1], weights := [1] }

def w4fv : FieldVariables :=
  { mapping := ["a", "b"], embeddings := [[1], [2]], biases := [0, 0] }

def w4hp : HParams := { embedding_size := 64, k := 3 }

def w4st : ModelState := { global_bias := 0, row := w4fv, col := w4fv }

def w4features : Features :=
  { row_tokens := ["a"], col_tokens := ["b"], values := [1], weights := [1] }

def w4ids : List Nat := [0]

def c5scores : List ℚ := [1]

def w5scores : List ℚ := [5, 5, 7]

def c8fv0 : FieldVariables := { mapping := ["a"], embeddings := [[0]], biases := [0] }

def c8state : ModelState := { global_bias := 1, row := c8fv0, col := c8fv0 }

def w8fv : FieldVariables := { mapping := ["a"], embeddings := [[0]], biases := [1] }

def w8state : ModelState := { global_bias := 0, row := w8fv, col := c8fv0 }

def w9hp : HParams := { embedding_size := 64, k := 100 }

def w9fv : FieldVariables := { mapping := ["a", "b"], embeddings := [[1], [2]], biases := [3, 4] }

def w9st : ModelState := { global_bias := 7, row := w9fv, col := w9fv }

def w9st2 : ModelState := { global_bias := 8, row := w9fv, col := w9fv }

def w9features : Features :=
  { row_tokens := ["a"], col_tokens := ["b"], values := [2], weights := [1] }

def w10mapping : List String := ["apple", "pear"]

def w10fv : FieldVariables :=
  { mapping := w10mapping, embeddings := [[1], [2]], biases := [3, 4] }

def w10hp : HParams := { embedding_size := 64, k := 1 }

def w10st : ModelState := { global_bias := 0, row := w10fv, col := w10fv }

def w10features : Features :=
  { row_tokens := ["zebra", "apple"], col_tokens := ["pear", "pear"],
    values := [1, 2], weights := [1, 1] }

def w10token : String := "zebra"

end Glove

namespace Glove

theorem lookup_lt_length (mapping : List String) (token : String)
    (hne : mapping ≠ []) : index_table_lookup mapping token < mapping.length := by
  unfold index_table_lookup
  split
  · assumption
  · exact List.length_pos.mpr hne

theorem lookup_of_not_mem (mapping : List String) (token : String)
    (h : token ∉ mapping) : index_table_lookup mapping token = 0 := by
  unfold index_table_lookup
  have : mapping.indexOf token = mapping.length := List.indexOf_eq_length.mpr h
  simp [this]

/-- Claim C6: every token looked up by the vocabulary/id mapper yields an id in
[0, V); a token absent from the vocabulary maps to the reserved default id 0, and
the lookup is a total function that never raises. -/
theorem token_lookup_contract (mapping : List String) (token : String)
    (hne : mapping ≠ []) :
    index_table_lookup mapping token < mapping.length
      ∧ (token ∉ mapping → index_table_lookup mapping token = 0) :=
  ⟨lookup_lt_length mapping token hne, lookup_of_not_mem mapping token⟩

def w6mapping : List String := ["alpha", "beta"]

def w6token : String := "gamma"

theorem token_lookup_contract_witness :
    index_table_lookup w6mapping w6token < w6mapping.length
      ∧ (w6token ∉ w6mapping → index_table_lookup w6mapping w6token = 0) :=
  token_lookup_contract w6mapping w6token (by decide)

/-- Claim C1: for every batch of (row_id, col_id) pairs, the forward pass returns,
pairwise, global_bias + row_bias[row_id] + col_bias[col_id] + dot of the two
looked-up embedding rows; in particular the output has exactly batch length. -/
theorem forward_pass_per_pair (g : ℚ) (row col : FieldVariables)
    (pairs : List (Nat × Nat)) :
    glove_forward_ids g row col (pairs.map Prod.fst) (pairs.map Prod.snd)
      = pairs.map (fun p =>
          g + row.biases.getD p.1 0 + col.biases.getD p.2 0
            + dot (row.embeddings.getD p.1 []) (col.embeddings.getD p.2 [])) := by
  induction pairs with
  | nil => rfl
  | cons p ps ih =>
      simp only [List.map_cons, glove_forward_ids, add_n3, bias_lookup,
        embedding_lookup, embed_product, List.zipWith_cons_cons] at ih ⊢
      refine List.cons_eq_cons.mpr ⟨by ring, ?_⟩
      exact ih

theorem weighted_losses_sum (labels preds weights : List ℚ)
    (hl : labels.length = weights.length) (hp : preds.length = weights.length) :
    (weighted_losses labels preds weights).sum
      = ∑ j in Finset.range weights.length,
          weights.getD j 0 * (preds.getD j 0 - labels.getD j 0) ^ 2 := by
  induction weights generalizing labels preds with
  | nil => simp [weighted_losses, squared_difference]
  | cons w ws ih =>
      cases labels with
      | nil => simp at hl
      | cons l ls =>
        cases preds with
        | nil => simp at hp
        | cons p ps =>
          simp only [List.length_cons] at hl hp
          have ihs := ih ls ps (by omega) (by omega)
          simp only [weighted_losses, squared_difference,
            List.zipWith_cons_cons, List.sum_cons] at ihs ⊢
          rw [List.length_cons, Finset.sum_range_succ']
          simp only [List.getD_cons_succ, List.getD_cons_zero]
          rw [ihs]
          ring

theorem num_present_card (weights : List ℚ) :
    num_present weights
      = ((Finset.range weights.length).filter (fun j => weights.getD j 0 ≠ 0)).card := by
  induction weights with
  | nil => simp [num_present]
  | cons w ws ih =>
      have h0 : num_present (w :: ws) = num_present ws + if w ≠ 0 then 1 else 0 := by
        by_cases hw : w = 0 <;> simp [num_present, List.filter_cons, hw]
      rw [h0, ih, List.length_cons, Finset.card_filter, Finset.card_filter,
        Finset.sum_range_succ']
      simp only [List.getD_cons_succ, List.getD_cons_zero]

theorem num_present_pos (weights : List ℚ) (hpos : ∃ w ∈ weights, 0 < w) :
    0 < num_present weights := by
  obtain ⟨w, hmem, hw⟩ := hpos
  have : w ∈ weights.filter (fun w => decide (w ≠ 0)) :=
    List.mem_filter.mpr ⟨hmem, by simp [ne_of_gt hw]⟩
  exact List.length_pos.mpr (List.ne_nil_of_mem this)

theorem getD_nonneg_of_forall (weights : List ℚ) (hw : ∀ w ∈ weights, 0 ≤ w)
    (j : Nat) : 0 ≤ weights.getD j 0 := by
  by_cases hj : j < weights.length
  · rw [List.getD_eq_getElem _ _ hj]
    exact hw _ (List.getElem_mem hj)
  · rw [List.getD_eq_default _ _ (by omega)]

/-- Claim C2 (amended): the training loss of glove.py divides the weighted squared
error by the number of indices with a nonzero weight (SUM_BY_NONZERO_WEIGHTS), not
by the sum of the weights.  With that denominator the remaining parts of the claim
hold: a sample of weight 0 contributes to neither numerator nor denominator, and
for non-negative weights with at least one positive weight the loss is zero iff
the prediction equals the observed value at every index of positive weight. -/
theorem weighted_mse_characterisation (labels preds weights : List ℚ)
    (hl : labels.length = weights.length) (hp : preds.length = weights.length)
    (hw : ∀ w ∈ weights, 0 ≤ w) (hpos : ∃ w ∈ weights, 0 < w) :
    mean_squared_error labels preds weights
        = (∑ j in Finset.range weights.length,
              weights.getD j 0 * (preds.getD j 0 - labels.getD j 0) ^ 2)
          / (((Finset.range weights.length).filter
              (fun j => weights.getD j 0 ≠ 0)).card : ℚ)
    ∧ (∀ v p : ℚ, mean_squared_error (v :: labels) (p :: preds) (0 :: weights)
          = mean_squared_error labels preds weights)
    ∧ (mean_squared_error labels preds weights = 0
          ↔ ∀ j, j < weights.length → 0 < weights.getD j 0 →
              preds.getD j 0 = labels.getD j 0) := by
  have hnp : 0 < num_present weights := num_present_pos weights hpos
  have hne : num_present weights ≠ 0 := Nat.pos_iff_ne_zero.mp hnp
  have hmse : mean_squared_error labels preds weights
      = (weighted_losses labels preds weights).sum / (num_present weights : ℚ) := by
    simp [mean_squared_error, hne]
  refine ⟨?_, ?_, ?_⟩
  · rw [hmse, weighted_losses_sum labels preds weights hl hp, num_present_card]
  · intro v p
    have h1 : num_present (0 :: weights) = num_present weights := by
      simp [num_present, List.filter_cons]
    have h2 : (weighted_losses (v :: labels) (p :: preds) (0 :: weights)).sum
        = (weighted_losses labels preds weights).sum := by
      simp [weighted_losses, squared_difference, List.zipWith_cons_cons]
    simp [mean_squared_error, h1, h2]
  · have hden : (0 : ℚ) < (num_present weights : ℚ) := by exact_mod_cast hnp
    rw [hmse, div_eq_iff hden.ne']
    rw [zero_mul, weighted_losses_sum labels preds weights hl hp]
    rw [Finset.sum_eq_zero_iff_of_nonneg (fun j _ =>
      mul_nonneg (getD_nonneg_of_forall weights hw j) (sq_nonneg _))]
    constructor
    · intro h j hj hwj
      have hterm := h j (Finset.mem_range.mpr hj)
      rcases mul_eq_zero.mp hterm with h1 | h2
      · exact absurd h1 (ne_of_gt hwj)
      · have := pow_eq_zero_iff (two_ne_zero) |>.mp h2
        exact sub_eq_zero.mp this
    · intro h j hjmem
      by_cases hwj0 : weights.getD j 0 = 0
      · rw [hwj0, zero_mul]
      · have hwjpos : 0 < weights.getD j 0 :=
          lt_of_le_of_ne (getD_nonneg_of_forall weights hw j) (Ne.symm hwj0)
        have heq := h j (Finset.mem_range.mp hjmem) hwjpos
        rw [heq, sub_self]
        ring

/-- Claim C2 counterexample: on the batch with observed value 0, prediction 1 and
weight 2, the loss of the code is 2 while the claimed formula
(sum of w*(p-v)^2) / (sum of w) gives 1. -/
theorem weighted_mse_claim_counterexample :
    mean_squared_error c2labels c2preds c2weights
      ≠ (c2weights.getD 0 0 * (c2preds.getD 0 0 - c2labels.getD 0 0) ^ 2)
          / c2weights.sum := by
  have h1 : mean_squared_error c2labels c2preds c2weights = 2 := by
    norm_num [mean_squared_error, num_present, weighted_losses, squared_difference,
      c2labels, c2preds, c2weights, List.filter_cons]
  have h2 : (c2weights.getD 0 0 * (c2preds.getD 0 0 - c2labels.getD 0 0) ^ 2)
      / c2weights.sum = 1 := by
    norm_num [c2labels, c2preds, c2weights]
  rw [h1, h2]
  norm_num

theorem weighted_mse_characterisation_witness :
    mean_squared_error w2labels w2preds w2weights
        = (∑ j in Finset.range w2weights.length,
              w2weights.getD j 0 * (w2preds.getD j 0 - w2labels.getD j 0) ^ 2)
          / (((Finset.range w2weights.length).filter
              (fun j => w2weights.getD j 0 ≠ 0)).card : ℚ)
    ∧ (∀ v p : ℚ, mean_squared_error (v :: w2labels) (p :: w2preds) (0 :: w2weights)
          = mean_squared_error w2labels w2preds w2weights)
    ∧ (mean_squared_error w2labels w2preds w2weights = 0
          ↔ ∀ j, j < w2weights.length → 0 < w2weights.getD j 0 →
              w2preds.getD j 0 = w2labels.getD j 0) :=
  weighted_mse_characterisation w2labels w2preds w2weights (by decide) (by decide)
    (by decide) ⟨2, by decide, by decide⟩

/-- Claim C3 (amended): a batch in which every weight is zero does not make the
loss computation fail; the safe mean of tf.losses.mean_squared_error silently
returns the value 0 (a zero-denominator check, not an epsilon guard). -/
theorem all_zero_weights_loss (labels preds weights : List ℚ)
    (h : ∀ w ∈ weights, w = 0) :
    mean_squared_error labels preds weights = 0 := by
  have h0 : num_present weights = 0 := by
    simp only [num_present, List.length_eq_zero]
    exact List.filter_eq_nil_iff.mpr (by intro a ha; simp [h a ha])
  simp [mean_squared_error, h0]

/-- Claim C3 counterexample: an all-zero-weight batch reaching the loss silently
returns the value 0 instead of failing with a ComputationError. -/
theorem all_zero_weights_counterexample :
    mean_squared_error c3labels c3preds c3weights = 0 := by
  norm_num [mean_squared_error, num_present, c3labels, c3preds, c3weights,
    List.filter_cons]

theorem all_zero_weights_loss_witness :
    mean_squared_error w3labels w3preds w3weights = 0 :=
  all_zero_weights_loss w3labels w3preds w3weights (by decide)

/-- Claim C5 (amended): tf.math.top_k requires k to be at most V (for k > V the
request fails, see the C5 counterexample); whenever k is at most V, the top-k
over the similarity scores row of a query returns exactly the claimed sequence:
its length is min k V = k and its entries are strictly ranked, i.e. scores are
non-increasing and two entries with an identical score are ordered by ascending
vocabulary id. -/
theorem top_k_ordering (scores : List ℚ) (k : Nat) (hk : k ≤ scores.length) :
    top_k scores k = Except.ok (top_k_pairs scores k)
    ∧ (top_k_pairs scores k).length = min k scores.length
    ∧ List.Pairwise strict_rank_order (top_k_pairs scores k) := by
  refine ⟨by simp [top_k, hk], ?_, ?_⟩
  · have hperm := List.perm_insertionSort simOrder scores.enum
    rw [top_k_pairs, List.length_take, hperm.length_eq, List.enum_length]
  · have hsorted : List.Pairwise simOrder (List.insertionSort simOrder scores.enum) :=
      List.sorted_insertionSort simOrder scores.enum
    have hperm := List.perm_insertionSort simOrder scores.enum
    have hnodup : ((List.insertionSort simOrder scores.enum).map Prod.fst).Nodup :=
      ((hperm.map Prod.fst).nodup_iff).mpr (List.nodup_enum_map_fst scores)
    have hne : List.Pairwise (fun a b : Nat × ℚ => a.1 ≠ b.1)
        (List.insertionSort simOrder scores.enum) :=
      (List.pairwise_map).mp hnodup
    have hstrict : List.Pairwise strict_rank_order
        (List.insertionSort simOrder scores.enum) := by
      refine (hsorted.and hne).imp ?_
      rintro a b ⟨hab, hne1⟩
      rcases hab with h | ⟨heq, hle⟩
      · exact Or.inl h
      · exact Or.inr ⟨heq, lt_of_le_of_ne hle hne1⟩
    exact hstrict.sublist (List.take_sublist k _)

/-- Claim C5 counterexample: with vocabulary size 1 and k = 2, tf.math.top_k
fails instead of returning a sequence of length min k V = 1. -/
theorem top_k_length_counterexample : isOkE (top_k c5scores 2) = false := rfl

theorem top_k_ordering_witness :
    top_k w5scores 2 = Except.ok (top_k_pairs w5scores 2)
    ∧ (top_k_pairs w5scores 2).length = min 2 w5scores.length
    ∧ List.Pairwise strict_rank_order (top_k_pairs w5scores 2) :=
  top_k_ordering w5scores 2 (by decide)

/-- Claim C4 counterexample: with vocabulary size 1 and k = 5 (outside [1, V])
the model function succeeds in TRAIN mode; no ConfigError is raised at model
construction or before a training step. -/
theorem k_not_validated_counterexample :
    isOkE (model_fn c4hp c4st c4features ModeKeys.TRAIN) = true := rfl

/-- Claim C4 (amended): k is never validated at construction: TRAIN and EVAL
invocations succeed for every configuration, state, features and k; an
out-of-range k > V is detected only when tf.math.top_k runs inside the
PREDICT-mode similarity computation on a nonempty batch, where it fails with
InvalidArgumentError; k is never silently clamped. -/
theorem k_validation_contract (hp : HParams) (st : ModelState) (feat : Features)
    (fv : FieldVariables) (ids : List Nat) (k : Nat)
    (hids : ids ≠ []) (hk : fv.embeddings.length < k) :
    isOkE (model_fn hp st feat ModeKeys.TRAIN) = true
    ∧ isOkE (model_fn hp st feat ModeKeys.EVAL) = true
    ∧ get_similarity fv ids k = Except.error TfError.invalidArgument := by
  refine ⟨rfl, rfl, ?_⟩
  cases ids with
  | nil => exact absurd rfl hids
  | cons i is =>
      have hlt : ¬ (k ≤ (fv.embeddings.map
          (fun br => dot (fv.embeddings.getD i []) br)).length) := by
        rw [List.length_map]
        omega
      have hcons : matmul_transpose_b (embedding_lookup fv.embeddings (i :: is))
            fv.embeddings
          = (fv.embeddings.map (fun br => dot (fv.embeddings.getD i []) br))
            :: matmul_transpose_b (embedding_lookup fv.embeddings is) fv.embeddings :=
        rfl
      have herr : top_k (fv.embeddings.map
            (fun br => dot (fv.embeddings.getD i []) br)) k
          = Except.error TfError.invalidArgument := by
        rw [top_k, if_neg hlt]
      unfold get_similarity
      rw [hcons, List.mapM_cons, herr]
      rfl

theorem k_validation_contract_witness :
    isOkE (model_fn w4hp w4st w4features ModeKeys.TRAIN) = true
    ∧ isOkE (model_fn w4hp w4st w4features ModeKeys.EVAL) = true
    ∧ get_similarity w4fv w4ids 3 = Except.error TfError.invalidArgument :=
  k_validation_contract w4hp w4st w4features w4fv w4ids 3 (by decide) (by decide)

/-- Claim C7 counterexample: the bias vector of an embedding table is created by
tf.get_variable with no initializer argument (glove.py line 25), so it uses the
TF1 default glorot uniform scheme and is not zero-initialised. -/
theorem bias_scheme_counterexample :
    get_field_variables_schemes.biases_scheme ≠ InitScheme.zeros := by decide

/-- Claim C7 (amended): both the embedding matrix and the bias vector of a field
are created with the framework default glorot uniform scheme, i.e. small random
values; the bias vector is not initialised to zeros. -/
theorem field_variables_schemes :
    get_field_variables_schemes.embeddings_scheme = InitScheme.glorot_uniform
    ∧ get_field_variables_schemes.biases_scheme = InitScheme.glorot_uniform :=
  ⟨rfl, rfl⟩

theorem sq_norm_nonneg (v : List ℚ) : 0 ≤ sq_norm v := by
  refine List.sum_nonneg ?_
  intro x hx
  obtain ⟨y, _, rfl⟩ := List.mem_map.mp hx
  exact sq_nonneg y

theorem sq_norm_pos (v : List ℚ) (x : ℚ) (hx : x ∈ v) (hx0 : x ≠ 0) :
    0 < sq_norm v := by
  have hmem : x ^ 2 ∈ v.map (fun y => y ^ 2) := List.mem_map_of_mem _ hx
  have hle : x ^ 2 ≤ sq_norm v := by
    refine List.single_le_sum ?_ _ hmem
    intro y hy
    obtain ⟨z, _, rfl⟩ := List.mem_map.mp hy
    exact sq_nonneg z
  have hx2 : 0 < x ^ 2 := by positivity
  exact lt_of_lt_of_le hx2 hle

theorem sq_norm_matrix_nonneg (m : List (List ℚ)) : 0 ≤ sq_norm_matrix m := by
  refine List.sum_nonneg ?_
  intro x hx
  obtain ⟨r, _, rfl⟩ := List.mem_map.mp hx
  exact sq_norm_nonneg r

theorem sq_norm_matrix_pos (m : List (List ℚ)) (r : List ℚ) (hr : r ∈ m)
    (x : ℚ) (hx : x ∈ r) (hx0 : x ≠ 0) : 0 < sq_norm_matrix m := by
  have hmem : sq_norm r ∈ m.map sq_norm := List.mem_map_of_mem _ hr
  have hle : sq_norm r ≤ sq_norm_matrix m := by
    refine List.single_le_sum ?_ _ hmem
    intro y hy
    obtain ⟨s, _, rfl⟩ := List.mem_map.mp hy
    exact sq_norm_nonneg s
  exact lt_of_lt_of_le (sq_norm_pos r x hx hx0) hle

/-- Claim C8 (amended): with coefficient zero the total training objective equals
the weighted MSE loss exactly; with a positive coefficient it strictly exceeds
the loss whenever any embedding-table parameter (an entry of either embedding
matrix or of either bias vector) is nonzero.  The spec-modelled penalty covers
the two embedding tables only, so a nonzero global bias alone does not raise the
objective (see the C8 counterexample). -/
theorem regularisation_objective (l2_reg : ℚ) (st : ModelState) (loss : ℚ) :
    total_objective 0 st loss = loss
    ∧ (0 < l2_reg →
        ((∃ r ∈ st.row.embeddings, ∃ x ∈ r, x ≠ 0)
          ∨ (∃ x ∈ st.row.biases, x ≠ 0)
          ∨ (∃ r ∈ st.col.embeddings, ∃ x ∈ r, x ≠ 0)
          ∨ (∃ x ∈ st.col.biases, x ≠ 0)) →
        loss < total_objective l2_reg st loss) := by
  constructor
  · simp [total_objective, l2_penalty]
  · intro hreg hne
    have n1 := sq_norm_matrix_nonneg st.row.embeddings
    have n2 := sq_norm_nonneg st.row.biases
    have n3 := sq_norm_matrix_nonneg st.col.embeddings
    have n4 := sq_norm_nonneg st.col.biases
    have hS : 0 < sq_norm_matrix st.row.embeddings + sq_norm st.row.biases
        + sq_norm_matrix st.col.embeddings + sq_norm st.col.biases := by
      rcases hne with ⟨r, hr, x, hx, hx0⟩ | ⟨x, hx, hx0⟩ | ⟨r, hr, x, hx, hx0⟩
        | ⟨x, hx, hx0⟩
      · have := sq_norm_matrix_pos st.row.embeddings r hr x hx hx0
        linarith
      · have := sq_norm_pos st.row.biases x hx hx0
        linarith
      · have := sq_norm_matrix_pos st.col.embeddings r hr x hx hx0
        linarith
      · have := sq_norm_pos st.col.biases x hx hx0
        linarith
    have hpen : 0 < l2_penalty l2_reg st := mul_pos hreg hS
    unfold total_objective
    linarith

/-- Claim C8 counterexample: a state whose only nonzero parameter is the global
bias leaves the total objective equal to the loss even with coefficient 1, since
the regularisation penalty covers only the embedding tables. -/
theorem global_bias_only_counterexample :
    c8state.global_bias ≠ 0 ∧ total_objective 1 c8state 5 = 5 := by
  constructor
  · norm_num [c8state]
  · norm_num [total_objective, l2_penalty, sq_norm_matrix, sq_norm, c8state, c8fv0]

theorem regularisation_objective_witness :
    total_objective 0 w8state 3 = 3 ∧ 3 < total_objective 1 w8state 3 :=
  ⟨(regularisation_objective 1 w8state 3).1,
    (regularisation_objective 1 w8state 3).2 (by norm_num)
      (Or.inr (Or.inl ⟨1, by decide, by decide⟩))⟩

/-- Claim C9: in EVAL mode the model function computes only the forward pass and
the loss: it returns no predictions, constructs no train op, and applying the
returned spec with an arbitrary optimizer step function leaves every parameter
(global bias, both embedding matrices and both bias vectors) unchanged. -/
theorem eval_mode_frame (hp : HParams) (st : ModelState) (feat : Features)
    (step : ModelState → ModelState) :
    model_fn hp st feat ModeKeys.EVAL
      = Except.ok
          { mode := ModeKeys.EVAL
            predictions := none
            loss := some (mean_squared_error feat.values
              (glove_predicted st feat.row_tokens feat.col_tokens) feat.weights)
            train_op := false }
    ∧ apply_spec st step
          { mode := ModeKeys.EVAL
            predictions := none
            loss := some (mean_squared_error feat.values
              (glove_predicted st feat.row_tokens feat.col_tokens) feat.weights)
            train_op := false }
        = st :=
  ⟨rfl, rfl⟩

theorem lookup_headI (mapping : List String) (hne : mapping ≠ []) :
    index_table_lookup mapping mapping.headI = 0 := by
  cases mapping with
  | nil => exact absurd rfl hne
  | cons a l => simp [index_table_lookup, List.indexOf_cons_self]

theorem get_field_ids_subst (fv : FieldVariables) (t : String)
    (hne : fv.mapping ≠ []) (ht : t ∉ fv.mapping) (tokens : List String) :
    get_field_ids fv (tokens.map (fun s => if s = t then fv.mapping.headI else s))
      = get_field_ids fv tokens := by
  simp only [get_field_ids, List.map_map]
  refine List.map_congr_left ?_
  intro s _
  simp only [Function.comp_apply]
  by_cases hs : s = t
  · rw [if_pos hs, lookup_headI fv.mapping hne,
      lookup_of_not_mem fv.mapping s (by rw [hs]; exact ht)]
  · rw [if_neg hs]

/-- Claim C10: replacing an out-of-vocabulary token of the batch by the first
vocabulary token leaves the model output unchanged: the fallback id 0 selects the
same stored embedding row and bias as the genuine id-0 entry, so the model
function returns identical results in every mode, covering the predicted values,
the loss, and the top-k similarity outputs. -/
theorem oov_token_indistinguishable (hp : HParams) (st : ModelState)
    (feat : Features) (t : String) (mode : ModeKeys)
    (hne : st.row.mapping ≠ []) (ht : t ∉ st.row.mapping) :
    get_field_ids st.row
        (feat.row_tokens.map (fun s => if s = t then st.row.mapping.headI else s))
      = get_field_ids st.row feat.row_tokens
    ∧ model_fn hp st
        { feat with row_tokens :=
            feat.row_tokens.map (fun s => if s = t then st.row.mapping.headI else s) }
        mode
      = model_fn hp st feat mode := by
  have hids := get_field_ids_subst st.row t hne ht feat.row_tokens
  refine ⟨hids, ?_⟩
  cases mode <;> simp only [model_fn, glove_predicted, hids]

theorem oov_token_indistinguishable_witness :
    get_field_ids w10st.row
        (w10features.row_tokens.map
          (fun s => if s = w10token then w10st.row.mapping.headI else s))
      = get_field_ids w10st.row w10features.row_tokens
    ∧ model_fn w10hp w10st
        { w10features with row_tokens :=
            w10features.row_tokens.map (fun s =>
              if s = w10token then w10st.row.mapping.headI else s) }
        ModeKeys.PREDICT
      = model_fn w10hp w10st w10features ModeKeys.PREDICT :=
  oov_token_indistinguishable w10hp w10st w10features w10token ModeKeys.PREDICT
    (by decide) (by decide)

end Glove
